import Mathlib

/-!
Verification development for the geographic coverage engine of the
Strava-Visualiser repository.  The definitions below are a shallow embedding
of `src/MapCoverage.py` (newer variant, the one with point sampling, the
four-region loop and the within/intersects fallback); the older UK-only
script is the same pipeline restricted to one region and stride 1.

External geometry operations (shapely / geopandas: `within`, `intersects`,
`buffer`, `unary_union`, `simplify`, `area`, `to_crs`) are modelled as the
abstract operations of a `GeoModel`; the control flow, arithmetic and data
handling of the Python script itself are translated directly.
-/

deriving instance DecidableEq for Except

/-- A point as built by shapely's `Point(lon, lat)`: `x` is the longitude,
`y` is the latitude (decimal degrees in EPSG:4326, or projected units). -/
structure GeoPoint where
  x : ℚ
  y : ℚ
deriving DecidableEq

/-- One data field of a FIT `record` message, as yielded by
`for data in record`: a field name and a possibly null value.  Coordinate
values are fixed-point semicircle integers. -/
structure FitField where
  name : String
  value : Option Int
deriving DecidableEq

/-- The semicircle-to-degrees conversion `data.value * (180 / 2**31)`
applied to `position_lat` / `position_long` values. -/
def semicircleToDeg (v : Int) : ℚ :=
  (v : ℚ) * (180 / 2 ^ 31)

/-- One iteration of the `for data in record` loop of the `.fit.gz` branch:
`if data.name == 'position_lat' and data.value is not None: lat = ...`
`elif data.name == 'position_long' and data.value is not None: lon = ...`.
The accumulator is the pair of the `lat` and `lon` local variables. -/
def fitFieldStep (acc : Option ℚ × Option ℚ) (data : FitField) : Option ℚ × Option ℚ :=
  match data.value with
  | none => acc
  | some v =>
      if data.name = "position_lat" then (some (semicircleToDeg v), acc.2)
      else if data.name = "position_long" then (acc.1, some (semicircleToDeg v))
      else acc

/-- Processing of one FIT record: `lat = None; lon = None`, the field loop,
then `if lat is not None and lon is not None: runs.append(Point(lon, lat))`. -/
def extractRecordPoint (record : List FitField) : Option GeoPoint :=
  match record.foldl fitFieldStep (none, none) with
  | (some lat, some lon) => some ⟨lon, lat⟩
  | _ => none

/-- Specification-side helper: one step of `last non-null value of the fields
called `name`, used to characterise the field loop. -/
def lastNonNullStep (name : String) (acc : Option Int) (d : FitField) : Option Int :=
  match d.value with
  | none => acc
  | some v => if d.name = name then some v else acc

/-- Last non-null value among the fields called `name`, starting from `acc`. -/
def lastNonNullFrom (name : String) (acc : Option Int) (r : List FitField) : Option Int :=
  r.foldl (lastNonNullStep name) acc

/-- Last non-null value among the fields called `name` in a record. -/
def lastNonNull (name : String) (r : List FitField) : Option Int :=
  lastNonNullFrom name none r

/-- The `for record in fitfile.get_messages('record')` loop of the `.fit.gz`
branch: `point_count += 1; if point_count % sample_rate != 0: continue;`
then per-record coordinate extraction and `runs.append(Point(lon, lat))`.
The first argument after the stride is the running `point_count`. -/
def fitLoopAux (sr : Nat) : Nat → List (List FitField) → List GeoPoint
  | _, [] => []
  | point_count, record :: rest =>
      if (point_count + 1) % sr ≠ 0 then fitLoopAux sr (point_count + 1) rest
      else
        match extractRecordPoint record with
        | some p => p :: fitLoopAux sr (point_count + 1) rest
        | none => fitLoopAux sr (point_count + 1) rest

/-- A parsed GPX track point (`point.latitude`, `point.longitude`). -/
structure GpxTrackPoint where
  latitude : ℚ
  longitude : ℚ
deriving DecidableEq

/-- A GPX track segment (`segment.points`). -/
structure TrackSegment where
  points : List GpxTrackPoint
deriving DecidableEq

/-- A GPX track (`track.segments`). -/
structure GpxTrack where
  segments : List TrackSegment
deriving DecidableEq

/-- A parsed GPX document (`gpx.tracks`). -/
structure GpxData where
  tracks : List GpxTrack
deriving DecidableEq

/-- All points of a GPX file in iteration order of the nested
`for track / for segment / for point` loops (empty segments contribute
nothing, so the `if segment.points:` guard does not change this list). -/
def gpxAllPoints (g : GpxData) : List GpxTrackPoint :=
  ((g.tracks.map fun t => (t.segments.map fun s => s.points).flatten).flatten)

/-- The `file_has_points` flag: set when some segment has a non-empty
point list (checked before decimation). -/
def file_has_points (g : GpxData) : Bool :=
  g.tracks.any fun t => t.segments.any fun s => !s.points.isEmpty

/-- The GPX decimation loop: `point_count += 1;
if point_count % sample_rate != 0: continue; runs.append(...)`.
Keeps every element whose 1-based position (counted from the running
`point_count`) is divisible by the stride. -/
def decimateAux {α : Type} (sr : Nat) : Nat → List α → List α
  | _, [] => []
  | point_count, p :: rest =>
      if (point_count + 1) % sr ≠ 0 then decimateAux sr (point_count + 1) rest
      else p :: decimateAux sr (point_count + 1) rest

/-- The stride configured in the source: `sample_rate = 5`, commented
"Keep every 5th point". -/
def sample_rate : Nat := 5

/-- One directory entry as seen by the `for file in os.listdir(folder)` loop.
For the parsed formats, `none` stands for a malformed file on which the
library parser raises (decode error, truncated stream); `other` is a file
with an unsupported extension. -/
inductive FileContent where
  | gpx (parsed : Option GpxData)
  | gpxgz (parsed : Option GpxData)
  | fitgz (parsed : Option (List (List FitField)))
  | other
deriving DecidableEq

/-- The uncaught exception raised by `gpxpy.parse` on a malformed `.gpx` or
`.gpx.gz` file: there is no try/except around those branches. -/
inductive ParseErr where
  | gpxParseError
deriving DecidableEq

/-- The mutable state of the ingestion loop: the `runs` accumulator and the
`valid_files` counter. -/
structure BatchState where
  runs : List GeoPoint
  valid_files : Nat
deriving DecidableEq

/-- A file whose trajectory-markup content parses without raising (its
`.fit.gz` content may still be malformed: that branch is wrapped in
try/except). -/
def gpxWellFormed (f : FileContent) : Prop :=
  f ≠ FileContent.gpx none ∧ f ≠ FileContent.gpxgz none

instance (f : FileContent) : Decidable (gpxWellFormed f) :=
  decidable_of_iff (f ≠ FileContent.gpx none ∧ f ≠ FileContent.gpxgz none) Iff.rfl

/-- Processing of a single directory entry, translated arm by arm from the
ingestion loop.  A malformed `.gpx`/`.gpx.gz` raises (uncaught); a malformed
`.fit.gz` is caught by the `except` clause, logged, and leaves the state
unchanged; unsupported extensions are skipped. -/
def processFile (sr : Nat) (st : BatchState) (f : FileContent) :
    Except ParseErr BatchState :=
  match f with
  | .gpx none => .error .gpxParseError
  | .gpxgz none => .error .gpxParseError
  | .gpx (some g) | .gpxgz (some g) =>
      .ok ⟨st.runs ++ (decimateAux sr 0 (gpxAllPoints g)).map
              fun p => (⟨p.longitude, p.latitude⟩ : GeoPoint),
           st.valid_files + if file_has_points g then 1 else 0⟩
  | .fitgz none => .ok st
  | .fitgz (some records) =>
      .ok ⟨st.runs ++ fitLoopAux sr 0 records,
           st.valid_files + if (fitLoopAux sr 0 records).isEmpty then 0 else 1⟩
  | .other => .ok st

/-- The whole directory loop: an uncaught exception aborts the batch,
otherwise files are processed in order. -/
def processFiles (sr : Nat) : BatchState → List FileContent → Except ParseErr BatchState
  | st, [] => .ok st
  | st, f :: fs =>
      match processFile sr st f with
      | .ok stNext => processFiles sr stNext fs
      | .error e => .error e

/-- The coordinate reference systems appearing in the script: WGS84
geographic degrees, the British National Grid, and Web Mercator. -/
inductive CRS where
  | epsg4326
  | epsg27700
  | epsg3857
deriving DecidableEq

/-- Whether a CRS measures in linear units (metres): the projected systems
EPSG:27700 and EPSG:3857 do; raw geographic degrees (EPSG:4326) do not. -/
def CRS.isLinear : CRS → Bool
  | .epsg4326 => false
  | .epsg27700 => true
  | .epsg3857 => true

/-- Abstract interface to the external geometry library (shapely/geopandas)
and to the boundary shapefile.  `P` is the type of (possibly projected)
points, `G` of geometries.  The named geometries stand for the external
constructions of the script: `uk.to_crs(epsg=27700)`, the Sheffield and
Buckinghamshire bounding boxes built with `box(...)` in EPSG:4326 and
reprojected to EPSG:3857, and the simplified world layer. -/
structure GeoModel (P G : Type) where
  to_crs27700 : P → P
  to_crs3857 : P → P
  within : P → G → Bool
  intersects : P → G → Bool
  buffer : P → ℚ → G
  unary_union : List G → G
  simplify : G → ℚ → G
  area : G → ℚ
  ukGeom : G
  sheffieldGeom : G
  bucksGeom : G
  worldGeom : G

/-- A single-geometry GeoDataFrame as returned by `get_region_gdf`, tagged
with the CRS it was reprojected to. -/
structure RegionGdf (G : Type) where
  crs : CRS
  geom : G
deriving DecidableEq

/-- The region registry `get_region_gdf(region_name)`: the if/elif chain of
the source.  A name matching no branch falls through, and the Python
function implicitly returns `None`. -/
def get_region_gdf {P G : Type} (M : GeoModel P G) (region_name : String) :
    Option (RegionGdf G) :=
  if region_name = "UK" then some ⟨CRS.epsg27700, M.ukGeom⟩
  else if region_name = "Sheffield" then some ⟨CRS.epsg3857, M.sheffieldGeom⟩
  else if region_name = "Buckinghamshire" then some ⟨CRS.epsg3857, M.bucksGeom⟩
  else if region_name = "World" then some ⟨CRS.epsg4326, M.worldGeom⟩
  else none

/-- The per-region projection of the combined point set: kept in WGS84 for
the world view, reprojected to EPSG:27700 for the UK and to EPSG:3857
otherwise. -/
def gdf_for_region {P G : Type} (M : GeoModel P G) (gdf : List P) (region_name : String) :
    List P :=
  if region_name = "World" then gdf
  else if region_name = "UK" then gdf.map M.to_crs27700
  else gdf.map M.to_crs3857

/-- The CRS in which `gdf_for_region` leaves the points (and hence in which
the buffer operation later runs). -/
def points_crs (region_name : String) : CRS :=
  if region_name = "World" then CRS.epsg4326
  else if region_name = "UK" then CRS.epsg27700
  else CRS.epsg3857

/-- The per-region `buffer_distance`: 0.02 (degrees) for the world view,
100 (metres) for the UK, 200 (metres) otherwise. -/
def buffer_distance (region_name : String) : ℚ :=
  if region_name = "World" then 0.02
  else if region_name = "UK" then 100
  else 200

/-- The per-region simplification tolerance: 0.001 for the world view, 10
for the UK, 30 otherwise. -/
def simplify_tolerance (region_name : String) : ℚ :=
  if region_name = "World" then 0.001
  else if region_name = "UK" then 10
  else 30

/-- The uncaught `AttributeError` raised by
`region_gdf.geometry.iloc[0]` when `get_region_gdf` returned `None`. -/
inductive RegionErr where
  | noneTypeAttributeError
deriving DecidableEq

/-- What one iteration of the region loop produces when it is not skipped:
the filtered point set, which spatial predicate produced it (the log line),
the CRS and radius of the buffer operation that was executed, the
simplified coverage union, and the printed coverage percentage (absent for
the world view). -/
structure RegionResult (P G : Type) where
  filtered : List P
  usedFallback : Bool
  bufferCrs : CRS
  bufferDistance : ℚ
  covered : G
  percent : Option ℚ
deriving DecidableEq

/-- The tail of one region-loop iteration, common to all filtering branches
(source order: skip when the filtered set is empty, else buffer every point,
union, simplify, then compute the percentage for non-world regions).  The
inner `match` on `get_region_gdf` in the percentage is reached only with a
known region, since an unknown one already raised during filtering. -/
def processRegionCont {P G : Type} (M : GeoModel P G) (region_name : String)
    (filtered : List P) (fb : Bool) : Except RegionErr (Option (RegionResult P G)) :=
  if filtered.isEmpty then Except.ok none
  else
    let covered := M.simplify
        (M.unary_union (filtered.map fun p => M.buffer p (buffer_distance region_name)))
        (simplify_tolerance region_name)
    let percent : Option ℚ :=
      if region_name = "World" then none
      else
        match get_region_gdf M region_name with
        | some rg => some (M.area covered / M.area rg.geom * 100)
        | none => none
    Except.ok (some ⟨filtered, fb, points_crs region_name, buffer_distance region_name,
      covered, percent⟩)

/-- One iteration of the `for region_name in regions` loop.  The world view
keeps all points; otherwise `region_gdf.geometry.iloc[0]` raises on `None`,
then an inner spatial join with predicate `within` is tried and, if it comes
back empty, the join is retried with predicate `intersects` (logging the
fallback). -/
def processRegion {P G : Type} (M : GeoModel P G) (gdf : List P) (region_name : String) :
    Except RegionErr (Option (RegionResult P G)) :=
  if region_name = "World" then
    processRegionCont M region_name (gdf_for_region M gdf region_name) false
  else
    match get_region_gdf M region_name with
    | none => Except.error RegionErr.noneTypeAttributeError
    | some rg =>
        let w := (gdf_for_region M gdf region_name).filter fun p => M.within p rg.geom
        if w.isEmpty then
          processRegionCont M region_name
            ((gdf_for_region M gdf region_name).filter fun p => M.intersects p rg.geom) true
        else processRegionCont M region_name w false

/-- The whole region loop: an uncaught exception in one iteration aborts the
remaining iterations. -/
def processRegions {P G : Type} (M : GeoModel P G) (gdf : List P) :
    List String → Except RegionErr (List (String × Option (RegionResult P G)))
  | [] => Except.ok []
  | region_name :: rest =>
      match processRegion M gdf region_name with
      | .error e => .error e
      | .ok res =>
          match processRegions M gdf rest with
          | .ok l => .ok ((region_name, res) :: l)
          | .error e => .error e

/-- A trivial instantiation of the geometry interface (all predicates true,
every area 1), used to exercise the pipeline on concrete inputs. -/
def trivialModel : GeoModel Unit Unit where
  to_crs27700 := fun p => p
  to_crs3857 := fun p => p
  within := fun _ _ => true
  intersects := fun _ _ => true
  buffer := fun _ _ => ()
  unary_union := fun _ => ()
  simplify := fun g _ => g
  area := fun _ => 1
  ukGeom := ()
  sheffieldGeom := ()
  bucksGeom := ()
  worldGeom := ()

/-- An instantiation of the geometry interface in which a geometry is
identified with its (nonnegative) area: buffering a point yields a disk of
area equal to the radius argument, union adds areas, simplification
preserves them, and the UK region polygon has area 1.  It realises the case
in which the buffered disks of in-region points cover more area than the
region polygon itself (boundary overshoot), which the script's unclamped
percentage formula does not guard against. -/
def inflatedModel : GeoModel Unit ℚ where
  to_crs27700 := fun p => p
  to_crs3857 := fun p => p
  within := fun _ _ => true
  intersects := fun _ _ => true
  buffer := fun _ r => r
  unary_union := fun l => l.sum
  simplify := fun g _ => g
  area := fun g => g
  ukGeom := 1
  sheffieldGeom := 1
  bucksGeom := 1
  worldGeom := 1

/-- The region row `get_region_gdf` returns for the UK under
`trivialModel`. -/
def ukRg : RegionGdf Unit := ⟨CRS.epsg27700, ()⟩

/-- The result the region loop produces for the UK under `trivialModel`
on the one-point input. -/
def ukRes : RegionResult Unit Unit := ⟨[()], false, CRS.epsg27700, 100, (), some 100⟩

lemma fitFieldStep_char (a b : Option Int) (d : FitField) :
    fitFieldStep (a.map semicircleToDeg, b.map semicircleToDeg) d
      = ((lastNonNullStep "position_lat" a d).map semicircleToDeg,
         (lastNonNullStep "position_long" b d).map semicircleToDeg) := by
  unfold fitFieldStep lastNonNullStep
  cases d.value with
  | none => rfl
  | some v =>
      by_cases h1 : d.name = "position_lat"
      · simp [h1]
      · by_cases h2 : d.name = "position_long"
        · simp [h1, h2]
        · simp [h1, h2]

lemma foldl_fitFieldStep_eq (r : List FitField) :
    ∀ a b : Option Int,
      List.foldl fitFieldStep (a.map semicircleToDeg, b.map semicircleToDeg) r
        = ((lastNonNullFrom "position_lat" a r).map semicircleToDeg,
           (lastNonNullFrom "position_long" b r).map semicircleToDeg) := by
  induction r with
  | nil => intro a b; rfl
  | cons d tl ih =>
      intro a b
      rw [List.foldl_cons, fitFieldStep_char a b d]
      exact ih _ _

lemma extractRecordPoint_char (r : List FitField) :
    extractRecordPoint r =
      match lastNonNull "position_lat" r, lastNonNull "position_long" r with
      | some la, some lo => some ⟨semicircleToDeg lo, semicircleToDeg la⟩
      | _, _ => none := by
  have h : List.foldl fitFieldStep (none, none) r
      = ((lastNonNull "position_lat" r).map semicircleToDeg,
         (lastNonNull "position_long" r).map semicircleToDeg) :=
    foldl_fitFieldStep_eq r none none
  unfold extractRecordPoint
  rw [h]
  cases lastNonNull "position_lat" r <;> cases lastNonNull "position_long" r <;> rfl

lemma lastNonNullStep_isSome (name : String) (acc : Option Int) (d : FitField) :
    (lastNonNullStep name acc d).isSome
      = (acc.isSome || (d.name == name && d.value.isSome)) := by
  unfold lastNonNullStep
  cases d.value with
  | none => simp
  | some v =>
      by_cases h : d.name = name
      · simp [h]
      · simp [h]

lemma lastNonNullFrom_isSome (name : String) (r : List FitField) :
    ∀ acc : Option Int,
      (lastNonNullFrom name acc r).isSome
        = (acc.isSome || r.any fun d => d.name == name && d.value.isSome) := by
  induction r with
  | nil => intro acc; simp [lastNonNullFrom]
  | cons d tl ih =>
      intro acc
      have hc : lastNonNullFrom name acc (d :: tl)
          = lastNonNullFrom name (lastNonNullStep name acc d) tl := rfl
      rw [hc, ih, lastNonNullStep_isSome]
      simp [Bool.or_assoc]

lemma lastNonNull_isSome_iff (name : String) (r : List FitField) :
    (lastNonNull name r).isSome ↔ ∃ d ∈ r, d.name = name ∧ d.value.isSome := by
  rw [lastNonNull, lastNonNullFrom_isSome]
  simp

/-- C2: for every FIT record, stored semicircle integers are converted to
decimal degrees by multiplying by 180 / 2^31, and a point is emitted if and
only if both the latitude and the longitude field are present with a
non-null value in that record (the emitted point being built from the last
non-null value of each coordinate field). -/
theorem fit_semicircle_conversion_and_emission (r : List FitField) :
    ((extractRecordPoint r).isSome ↔
        ((∃ d ∈ r, d.name = "position_lat" ∧ d.value.isSome) ∧
         (∃ d ∈ r, d.name = "position_long" ∧ d.value.isSome)))
    ∧ (∀ la lo : Int,
        lastNonNull "position_lat" r = some la →
        lastNonNull "position_long" r = some lo →
        extractRecordPoint r
          = some ⟨(lo : ℚ) * (180 / 2 ^ 31), (la : ℚ) * (180 / 2 ^ 31)⟩) := by
  constructor
  · rw [extractRecordPoint_char, ← lastNonNull_isSome_iff, ← lastNonNull_isSome_iff]
    cases lastNonNull "position_lat" r <;> cases lastNonNull "position_long" r <;> simp
  · intro la lo h1 h2
    rw [extractRecordPoint_char, h1, h2]
    rfl

/-- Witness for C2 at a concrete record: lat semicircles 2^30 ↦ 90°,
long semicircles -(2^30) ↦ -90°. -/
theorem fit_semicircle_conversion_and_emission_witness :
    extractRecordPoint
        [⟨"position_lat", some (2 ^ 30)⟩, ⟨"position_long", some (-(2 ^ 30))⟩]
      = some ⟨((-(2 ^ 30) : Int) : ℚ) * (180 / 2 ^ 31), (((2 ^ 30 : Int)) : ℚ) * (180 / 2 ^ 31)⟩ :=
  (fit_semicircle_conversion_and_emission
      [⟨"position_lat", some (2 ^ 30)⟩, ⟨"position_long", some (-(2 ^ 30))⟩]).2
    (2 ^ 30) (-(2 ^ 30)) (by decide) (by decide)

lemma lastNonNullStep_of_ne (name : String) (acc : Option Int) (d : FitField)
    (h : d.name ≠ name) : lastNonNullStep name acc d = acc := by
  unfold lastNonNullStep
  cases d.value with
  | none => rfl
  | some v => exact if_neg h

lemma lastNonNullFrom_of_ne (name : String) (l : List FitField) :
    ∀ acc : Option Int, (∀ d ∈ l, d.name ≠ name) → lastNonNullFrom name acc l = acc := by
  induction l with
  | nil => intro acc _; rfl
  | cons d tl ih =>
      intro acc h
      have hc : lastNonNullFrom name acc (d :: tl)
          = lastNonNullFrom name (lastNonNullStep name acc d) tl := rfl
      rw [hc, lastNonNullStep_of_ne name acc d (h d (List.mem_cons_self d tl))]
      exact ih acc fun x hx => h x (List.mem_cons_of_mem d hx)

lemma lastNonNullFrom_append (name : String) (acc : Option Int) (l1 l2 : List FitField) :
    lastNonNullFrom name acc (l1 ++ l2)
      = lastNonNullFrom name (lastNonNullFrom name acc l1) l2 := by
  simp [lastNonNullFrom, List.foldl_append]

lemma lastNonNull_single (name : String) (xs ys : List FitField) (a : FitField)
    (hxs : ∀ d ∈ xs, d.name ≠ name) (hys : ∀ d ∈ ys, d.name ≠ name) :
    lastNonNull name (xs ++ a :: ys) = lastNonNullStep name none a := by
  unfold lastNonNull
  rw [lastNonNullFrom_append, lastNonNullFrom_of_ne name xs none hxs]
  have hc : lastNonNullFrom name none (a :: ys)
      = lastNonNullFrom name (lastNonNullStep name none a) ys := rfl
  rw [hc]
  exact lastNonNullFrom_of_ne name ys _ hys

lemma lastNonNull_eq_none_of_null (name : String) (r : List FitField)
    (h : ∀ d ∈ r, d.name = name → d.value = none) :
    lastNonNull name r = none := by
  by_contra hne
  have hs : (lastNonNull name r).isSome := by
    cases hlast : lastNonNull name r with
    | none => exact absurd hlast hne
    | some v => rfl
  obtain ⟨d, hd, hdn, hdv⟩ := (lastNonNull_isSome_iff name r).mp hs
  rw [h d hd hdn] at hdv
  exact absurd hdv (by simp)

lemma extractRecordPoint_eq_none_of_null_lat (r : List FitField)
    (h : ∀ d ∈ r, d.name = "position_lat" → d.value = none) :
    extractRecordPoint r = none := by
  rw [extractRecordPoint_char, lastNonNull_eq_none_of_null "position_lat" r h]

lemma fitLoopAux_append (sr : Nat) (l1 l2 : List (List FitField)) :
    ∀ cnt, fitLoopAux sr cnt (l1 ++ l2)
      = fitLoopAux sr cnt l1 ++ fitLoopAux sr (cnt + l1.length) l2 := by
  induction l1 with
  | nil => intro cnt; simp [fitLoopAux]
  | cons r tl ih =>
      intro cnt
      have harith : cnt + 1 + tl.length = cnt + (tl.length + 1) := by omega
      simp only [List.cons_append, fitLoopAux, List.length_cons, List.append_eq]
      by_cases h : (cnt + 1) % sr = 0
      · rw [if_neg (not_not_intro h), if_neg (not_not_intro h), ih (cnt + 1), harith]
        cases extractRecordPoint r <;> simp
      · rw [if_pos h, if_pos h, ih (cnt + 1), harith]

/-- C10: in `.fit.gz` parsing the `lat`/`lon` accumulators are reset at the
start of every record, so a record whose latitude field is absent or null
emits no point and never inherits a coordinate from earlier records (its
presence at the end of the record stream leaves the emitted points
unchanged), and the emitted point does not depend on the order in which the
single latitude field and the single longitude field appear within a
record. -/
theorem fit_record_reset_and_field_order (sr cnt : Nat)
    (rs : List (List FitField)) (r : List FitField)
    (xs ys zs : List FitField) (a b : FitField)
    (ha : a.name = "position_lat") (hb : b.name = "position_long")
    (hother : ∀ d ∈ xs ++ ys ++ zs, d.name ≠ "position_lat" ∧ d.name ≠ "position_long")
    (hmiss : ∀ d ∈ r, d.name = "position_lat" → d.value = none) :
    extractRecordPoint r = none ∧
    fitLoopAux sr cnt (rs ++ [r]) = fitLoopAux sr cnt rs ∧
    extractRecordPoint (xs ++ a :: (ys ++ b :: zs))
      = extractRecordPoint (xs ++ b :: (ys ++ a :: zs)) := by
  have hxs : ∀ d ∈ xs, d.name ≠ "position_lat" ∧ d.name ≠ "position_long" :=
    fun d hd => hother d (by simp [hd])
  have hys : ∀ d ∈ ys, d.name ≠ "position_lat" ∧ d.name ≠ "position_long" :=
    fun d hd => hother d (by simp [hd])
  have hzs : ∀ d ∈ zs, d.name ≠ "position_lat" ∧ d.name ≠ "position_long" :=
    fun d hd => hother d (by simp [hd])
  have hnone : extractRecordPoint r = none :=
    extractRecordPoint_eq_none_of_null_lat r hmiss
  refine ⟨hnone, ?_, ?_⟩
  · rw [fitLoopAux_append sr rs [r] cnt]
    simp only [fitLoopAux, hnone]
    by_cases h : (cnt + rs.length + 1) % sr = 0
    · rw [if_neg (not_not_intro h)]
      simp [fitLoopAux]
    · rw [if_pos h]
      simp [fitLoopAux]
  · have hba : ("position_lat" : String) ≠ "position_long" := by decide
    have e1lat : lastNonNull "position_lat" (xs ++ a :: (ys ++ b :: zs))
        = lastNonNullStep "position_lat" none a := by
      refine lastNonNull_single _ xs _ a (fun d hd => (hxs d hd).1) ?_
      intro d hd
      rcases List.mem_append.mp hd with hy | hbz
      · exact (hys d hy).1
      · rcases List.mem_cons.mp hbz with hdb | hz
        · rw [hdb, hb]; exact hba.symm
        · exact (hzs d hz).1
    have e2lat : lastNonNull "position_lat" (xs ++ b :: (ys ++ a :: zs))
        = lastNonNullStep "position_lat" none a := by
      have hre : xs ++ b :: (ys ++ a :: zs) = (xs ++ b :: ys) ++ a :: zs := by simp
      rw [hre]
      refine lastNonNull_single _ _ zs a ?_ (fun d hd => (hzs d hd).1)
      intro d hd
      rcases List.mem_append.mp hd with hx | hby
      · exact (hxs d hx).1
      · rcases List.mem_cons.mp hby with hdb | hy
        · rw [hdb, hb]; exact hba.symm
        · exact (hys d hy).1
    have e1lon : lastNonNull "position_long" (xs ++ a :: (ys ++ b :: zs))
        = lastNonNullStep "position_long" none b := by
      have hre : xs ++ a :: (ys ++ b :: zs) = (xs ++ a :: ys) ++ b :: zs := by simp
      rw [hre]
      refine lastNonNull_single _ _ zs b ?_ (fun d hd => (hzs d hd).2)
      intro d hd
      rcases List.mem_append.mp hd with hx | hay
      · exact (hxs d hx).2
      · rcases List.mem_cons.mp hay with hda | hy
        · rw [hda, ha]; exact hba
        · exact (hys d hy).2
    have e2lon : lastNonNull "position_long" (xs ++ b :: (ys ++ a :: zs))
        = lastNonNullStep "position_long" none b := by
      refine lastNonNull_single _ xs _ b (fun d hd => (hxs d hd).2) ?_
      intro d hd
      rcases List.mem_append.mp hd with hy | haz
      · exact (hys d hy).2
      · rcases List.mem_cons.mp haz with hda | hz
        · rw [hda, ha]; exact hba
        · exact (hzs d hz).2
    rw [extractRecordPoint_char, extractRecordPoint_char, e1lat, e2lat, e1lon, e2lon]

/-- Witness for C10 at concrete records and fields. -/
theorem fit_record_reset_and_field_order_witness :
    extractRecordPoint [⟨"position_long", some 2⟩] = none ∧
    fitLoopAux 1 0
        ([[⟨"position_lat", some 1⟩, ⟨"position_long", some 1⟩]] ++ [[⟨"position_long", some 2⟩]])
      = fitLoopAux 1 0 [[⟨"position_lat", some 1⟩, ⟨"position_long", some 1⟩]] ∧
    extractRecordPoint
        ([] ++ ⟨"position_lat", some 4⟩ :: ([⟨"speed", some 3⟩] ++ ⟨"position_long", some 5⟩ :: []))
      = extractRecordPoint
        ([] ++ ⟨"position_long", some 5⟩ :: ([⟨"speed", some 3⟩] ++ ⟨"position_lat", some 4⟩ :: [])) :=
  fit_record_reset_and_field_order 1 0
    [[⟨"position_lat", some 1⟩, ⟨"position_long", some 1⟩]] [⟨"position_long", some 2⟩]
    [] [⟨"speed", some 3⟩] [] ⟨"position_lat", some 4⟩ ⟨"position_long", some 5⟩
    rfl rfl (by decide) (by decide)

lemma processFiles_total (sr : Nat) (fs : List FileContent) :
    ∀ st : BatchState, (∀ f ∈ fs, gpxWellFormed f) →
      ∃ stFinal, processFiles sr st fs = Except.ok stFinal := by
  induction fs with
  | nil => intro st _; exact ⟨st, rfl⟩
  | cons f fs ih =>
      intro st h
      have hf := h f (List.mem_cons_self f fs)
      obtain ⟨st1, hst1⟩ : ∃ st1, processFile sr st f = Except.ok st1 := by
        cases f with
        | gpx p =>
            cases p with
            | none => exact absurd rfl hf.1
            | some g => exact ⟨_, rfl⟩
        | gpxgz p =>
            cases p with
            | none => exact absurd rfl hf.2
            | some g => exact ⟨_, rfl⟩
        | fitgz p =>
            cases p with
            | none => exact ⟨st, rfl⟩
            | some recs => exact ⟨_, rfl⟩
        | other => exact ⟨st, rfl⟩
      obtain ⟨stF, hF⟩ := ih st1 fun g hg => h g (List.mem_cons_of_mem f hg)
      refine ⟨stF, ?_⟩
      simp only [processFiles]
      rw [hst1]
      exact hF

/-- C1 counterexample: a malformed plain trajectory-markup (`.gpx`) file is
not caught — it aborts the whole batch, and the following well-formed
`.fit.gz` file is never processed. -/
theorem malformed_gpx_file_aborts_batch :
    processFiles sample_rate ⟨[], 0⟩
        [FileContent.gpx none,
         FileContent.fitgz (some [[⟨"position_lat", some 1⟩, ⟨"position_long", some 1⟩]])]
      = Except.error ParseErr.gpxParseError := rfl

/-- C1 amended: only malformed binary `.fit.gz` files are caught: such a file
is logged, contributes zero points (the state is unchanged), and every batch
whose `.gpx`/`.gpx.gz` entries all parse runs to completion. -/
theorem malformed_fit_file_isolated (sr : Nat) (st : BatchState) (fs : List FileContent)
    (h : ∀ f ∈ fs, gpxWellFormed f) :
    processFile sr st (FileContent.fitgz none) = Except.ok st ∧
    ∃ stFinal, processFiles sr st fs = Except.ok stFinal :=
  ⟨rfl, processFiles_total sr fs st h⟩

/-- Witness for C1's amended statement on a concrete batch. -/
theorem malformed_fit_file_isolated_witness :
    processFile sample_rate ⟨[], 0⟩ (FileContent.fitgz none) = Except.ok ⟨[], 0⟩ ∧
    ∃ stFinal, processFiles sample_rate ⟨[], 0⟩
        [FileContent.fitgz none, FileContent.other] = Except.ok stFinal :=
  malformed_fit_file_isolated sample_rate ⟨[], 0⟩
    [FileContent.fitgz none, FileContent.other] (by decide)

lemma decimateAux_length {α : Type} (sr : Nat) (l : List α) :
    ∀ cnt, (decimateAux sr cnt l).length = (cnt + l.length) / sr - cnt / sr := by
  induction l with
  | nil => intro cnt; simp [decimateAux]
  | cons p rest ih =>
      intro cnt
      have hmono : (cnt + 1) / sr ≤ (cnt + 1 + rest.length) / sr :=
        Nat.div_le_div_right (Nat.le_add_right _ _)
      have harith : cnt + (p :: rest).length = cnt + 1 + rest.length := by
        simp [List.length_cons]; omega
      rw [harith]
      by_cases h : (cnt + 1) % sr = 0
      · have hdvd : sr ∣ cnt + 1 := Nat.dvd_of_mod_eq_zero h
        have hs : (cnt + 1) / sr = cnt / sr + 1 := Nat.succ_div_of_dvd hdvd
        simp only [decimateAux]
        rw [if_neg (not_not_intro h), List.length_cons, ih (cnt + 1), hs]
        rw [hs] at hmono
        generalize (cnt + 1 + List.length rest) / sr = A at hmono ⊢
        generalize cnt / sr = B at hmono ⊢
        omega
      · have hndvd : ¬sr ∣ cnt + 1 := fun hd => h (Nat.dvd_iff_mod_eq_zero.mp hd)
        have hs : (cnt + 1) / sr = cnt / sr := Nat.succ_div_of_not_dvd hndvd
        simp only [decimateAux]
        rw [if_pos h, ih (cnt + 1), hs]

lemma decimateAux_one {α : Type} (l : List α) :
    ∀ cnt, decimateAux 1 cnt l = l := by
  induction l with
  | nil => intro cnt; rfl
  | cons p rest ih =>
      intro cnt
      simp only [decimateAux, Nat.mod_one]
      rw [if_neg (by simp)]
      rw [ih (cnt + 1)]

lemma decimateAux_enumFrom {α : Type} (sr : Nat) (l : List α) :
    ∀ cnt, decimateAux sr cnt l
      = ((List.enumFrom (cnt + 1) l).filter fun q => q.1 % sr == 0).map Prod.snd := by
  induction l with
  | nil => intro cnt; rfl
  | cons p rest ih =>
      intro cnt
      have henum : List.enumFrom (cnt + 1) (p :: rest)
          = (cnt + 1, p) :: List.enumFrom (cnt + 2) rest := rfl
      rw [henum]
      by_cases h : (cnt + 1) % sr = 0
      · rw [List.filter_cons_of_pos (by simpa using h)]
        simp only [decimateAux]
        rw [if_neg (not_not_intro h), List.map_cons, ih (cnt + 1)]
      · rw [List.filter_cons_of_neg (by simpa using h)]
        simp only [decimateAux]
        rw [if_pos h, ih (cnt + 1)]

/-- C4 counterexample: the stride configured in the source is 5, not 1, so by
default not every record is retained — a three-record file retains nothing. -/
theorem configured_stride_drops_records :
    sample_rate = 5 ∧
    decimateAux sample_rate 0 [(1 : ℚ), 2, 3] = [] ∧
    ¬decimateAux sample_rate 0 [(1 : ℚ), 2, 3] = [(1 : ℚ), 2, 3] := by
  refine ⟨rfl, rfl, ?_⟩
  decide

/-- C4 amended: a sampling stride of N retains exactly ⌊count/N⌋ of the
file's records — those whose 1-based position in file order is divisible by
N — counted independently per file (the counter starts at 0 for every file);
a stride of 1 retains every record, but the stride configured in the source
is 5. -/
theorem decimation_every_nth_floor_count {α : Type} (sr : Nat) (_hsr : 0 < sr) (l : List α) :
    (decimateAux sr 0 l).length = l.length / sr ∧
    decimateAux 1 0 l = l ∧
    decimateAux sr 0 l
      = ((List.enumFrom 1 l).filter fun q => q.1 % sr == 0).map Prod.snd := by
  refine ⟨?_, decimateAux_one l 0, ?_⟩
  · have h := decimateAux_length sr l 0
    simpa using h
  · have h := decimateAux_enumFrom sr l 0
    simpa using h

/-- Witness for C4's amended statement at stride 2 on a three-element list. -/
theorem decimation_every_nth_floor_count_witness :
    (decimateAux 2 0 [(1 : ℚ), 2, 3]).length = [(1 : ℚ), 2, 3].length / 2 ∧
    decimateAux 1 0 [(1 : ℚ), 2, 3] = [(1 : ℚ), 2, 3] ∧
    decimateAux 2 0 [(1 : ℚ), 2, 3]
      = ((List.enumFrom 1 [(1 : ℚ), 2, 3]).filter fun q => q.1 % 2 == 0).map Prod.snd :=
  decimation_every_nth_floor_count 2 (by decide) [(1 : ℚ), 2, 3]

/-- C9 counterexample: with the configured stride of 5, a `.gpx` file whose
single segment has three points contributes zero points to `runs` yet is
counted as a valid file — so the valid-files tally is not the number of
files that contributed at least one point. -/
theorem sampled_gpx_file_valid_but_zero_points :
    processFile sample_rate ⟨[], 0⟩
        (FileContent.gpx (some ⟨[⟨[⟨[⟨53, -1⟩, ⟨54, -1⟩, ⟨55, -1⟩]⟩]⟩]⟩))
      = Except.ok ⟨[], 1⟩ := rfl

/-- C9 amended: a file that yields zero decodable points (all segments empty
for trajectory markup; an empty decimated record yield for the binary
format) is not counted toward the valid-files tally, contributes zero points
and leaves the batch state unchanged, and processing continues (the result
is not an error).  The converse direction fails: for `.gpx` files the tally
counts raw pre-decimation segment content, not contributed points. -/
theorem zero_point_file_not_counted (sr : Nat) (st : BatchState)
    (g : GpxData) (records : List (List FitField))
    (hg : ∀ t ∈ g.tracks, ∀ s ∈ t.segments, s.points = [])
    (hr : fitLoopAux sr 0 records = []) :
    processFile sr st (FileContent.gpx (some g)) = Except.ok st ∧
    processFile sr st (FileContent.gpxgz (some g)) = Except.ok st ∧
    processFile sr st (FileContent.fitgz (some records)) = Except.ok st := by
  have hall : gpxAllPoints g = [] := by
    unfold gpxAllPoints
    rw [List.flatten_eq_nil_iff]
    intro l hl
    rw [List.mem_map] at hl
    obtain ⟨t, ht, hteq⟩ := hl
    rw [← hteq, List.flatten_eq_nil_iff]
    intro pts hpts
    rw [List.mem_map] at hpts
    obtain ⟨s, hs, hseq⟩ := hpts
    rw [← hseq]
    exact hg t ht s hs
  have hfhp : file_has_points g = false := by
    rw [file_has_points, List.any_eq_false]
    intro t ht
    rw [Bool.not_eq_true, List.any_eq_false]
    intro s hs
    rw [Bool.not_eq_true, hg t ht s hs]
    rfl
  have hgpx : processFile sr st (FileContent.gpx (some g)) = Except.ok st := by
    simp only [processFile]
    rw [hall, hfhp]
    cases st
    simp [decimateAux]
  have hgpxgz : processFile sr st (FileContent.gpxgz (some g)) = Except.ok st := by
    simp only [processFile]
    rw [hall, hfhp]
    cases st
    simp [decimateAux]
  refine ⟨hgpx, hgpxgz, ?_⟩
  simp only [processFile]
  rw [hr]
  cases st
  simp

/-- Witness for C9's amended statement on concrete empty-yield files. -/
theorem zero_point_file_not_counted_witness :
    processFile sample_rate ⟨[], 0⟩ (FileContent.gpx (some ⟨[⟨[⟨[]⟩]⟩]⟩)) = Except.ok ⟨[], 0⟩ ∧
    processFile sample_rate ⟨[], 0⟩ (FileContent.gpxgz (some ⟨[⟨[⟨[]⟩]⟩]⟩)) = Except.ok ⟨[], 0⟩ ∧
    processFile sample_rate ⟨[], 0⟩ (FileContent.fitgz (some [[⟨"position_lat", some 1⟩]]))
      = Except.ok ⟨[], 0⟩ :=
  zero_point_file_not_counted sample_rate ⟨[], 0⟩ ⟨[⟨[⟨[]⟩]⟩]⟩
    [[⟨"position_lat", some 1⟩]] (by decide) (by decide)

lemma processRegionCont_ok {P G : Type} (M : GeoModel P G) (region_name : String)
    (filtered : List P) (fb : Bool) (res : RegionResult P G)
    (hp : processRegionCont M region_name filtered fb = Except.ok (some res)) :
    filtered.isEmpty = false ∧
    res = ⟨filtered, fb, points_crs region_name, buffer_distance region_name,
      M.simplify (M.unary_union (filtered.map fun p => M.buffer p (buffer_distance region_name)))
        (simplify_tolerance region_name),
      if region_name = "World" then none
      else
        match get_region_gdf M region_name with
        | some rg => some (M.area (M.simplify
            (M.unary_union (filtered.map fun p => M.buffer p (buffer_distance region_name)))
            (simplify_tolerance region_name)) / M.area rg.geom * 100)
        | none => none⟩ := by
  unfold processRegionCont at hp
  by_cases he : filtered.isEmpty
  · rw [if_pos he] at hp
    exact absurd hp (by simp)
  · rw [if_neg he] at hp
    simp only [Except.ok.injEq, Option.some.injEq] at hp
    exact ⟨by simpa using he, hp.symm⟩

lemma processRegion_nonworld_some_eq {P G : Type} (M : GeoModel P G) (gdf : List P)
    (region_name : String) (rg : RegionGdf G)
    (hw : region_name ≠ "World") (hr : get_region_gdf M region_name = some rg) :
    processRegion M gdf region_name
      = (if ((gdf_for_region M gdf region_name).filter fun p => M.within p rg.geom).isEmpty
         then processRegionCont M region_name
             ((gdf_for_region M gdf region_name).filter fun p => M.intersects p rg.geom) true
         else processRegionCont M region_name
             ((gdf_for_region M gdf region_name).filter fun p => M.within p rg.geom) false) := by
  unfold processRegion
  rw [if_neg hw, hr]

lemma processRegion_ok_world {P G : Type} (M : GeoModel P G) (gdf : List P)
    (res : RegionResult P G)
    (hp : processRegion M gdf "World" = Except.ok (some res)) :
    gdf.isEmpty = false ∧
    res = ⟨gdf, false, CRS.epsg4326, buffer_distance "World",
           M.simplify (M.unary_union (gdf.map fun p => M.buffer p (buffer_distance "World")))
             (simplify_tolerance "World"), none⟩ := by
  unfold processRegion at hp
  rw [if_pos rfl] at hp
  obtain ⟨hne, hres⟩ :=
    processRegionCont_ok M "World" (gdf_for_region M gdf "World") false res hp
  constructor
  · exact hne
  · rw [hres]
    rfl

lemma processRegion_ok_nonworld {P G : Type} (M : GeoModel P G) (gdf : List P)
    (region_name : String) (res : RegionResult P G)
    (hw : region_name ≠ "World")
    (hp : processRegion M gdf region_name = Except.ok (some res)) :
    ∃ rg, get_region_gdf M region_name = some rg ∧
      res.usedFallback
        = ((gdf_for_region M gdf region_name).filter fun p => M.within p rg.geom).isEmpty ∧
      res.filtered
        = (if ((gdf_for_region M gdf region_name).filter fun p => M.within p rg.geom).isEmpty
           then (gdf_for_region M gdf region_name).filter fun p => M.intersects p rg.geom
           else (gdf_for_region M gdf region_name).filter fun p => M.within p rg.geom) ∧
      res.filtered.isEmpty = false ∧
      res.bufferCrs = points_crs region_name ∧
      res.bufferDistance = buffer_distance region_name ∧
      res.covered = M.simplify
          (M.unary_union (res.filtered.map fun p => M.buffer p (buffer_distance region_name)))
          (simplify_tolerance region_name) ∧
      res.percent = some (M.area res.covered / M.area rg.geom * 100) := by
  cases hr : get_region_gdf M region_name with
  | none =>
      rw [processRegion, if_neg hw, hr] at hp
      exact absurd hp (by simp)
  | some rg =>
      rw [processRegion_nonworld_some_eq M gdf region_name rg hw hr] at hp
      by_cases hwE : ((gdf_for_region M gdf region_name).filter fun p => M.within p rg.geom).isEmpty
      · rw [if_pos hwE] at hp
        obtain ⟨hne, hres⟩ := processRegionCont_ok M region_name _ true res hp
        subst hres
        exact ⟨rg, rfl, hwE.symm, by rw [if_pos hwE], hne, rfl, rfl, rfl,
          by rw [if_neg hw, hr]⟩
      · rw [if_neg hwE] at hp
        obtain ⟨hne, hres⟩ := processRegionCont_ok M region_name _ false res hp
        subst hres
        exact ⟨rg, rfl, hne.symm, by rw [if_neg hwE], hne, rfl, rfl, rfl,
          by rw [if_neg hw, hr]⟩

lemma get_region_gdf_crs {P G : Type} (M : GeoModel P G) (region_name : String)
    (rg : RegionGdf G) (hw : region_name ≠ "World")
    (hrg : get_region_gdf M region_name = some rg) :
    rg.crs = points_crs region_name ∧ rg.crs.isLinear = true := by
  unfold get_region_gdf at hrg
  by_cases h1 : region_name = "UK"
  · rw [if_pos h1] at hrg
    simp only [Option.some.injEq] at hrg
    subst h1
    subst hrg
    exact ⟨rfl, rfl⟩
  · rw [if_neg h1] at hrg
    by_cases h2 : region_name = "Sheffield"
    · rw [if_pos h2] at hrg
      simp only [Option.some.injEq] at hrg
      subst h2
      subst hrg
      exact ⟨rfl, rfl⟩
    · rw [if_neg h2] at hrg
      by_cases h3 : region_name = "Buckinghamshire"
      · rw [if_pos h3] at hrg
        simp only [Option.some.injEq] at hrg
        subst h3
        subst hrg
        exact ⟨rfl, rfl⟩
      · rw [if_neg h3, if_neg hw] at hrg
        exact absurd hrg (by simp)

lemma processRegion_triv_uk :
    processRegion trivialModel [()] "UK" = Except.ok (some ukRes) := by
  rw [processRegion_nonworld_some_eq trivialModel [()] "UK" ukRg (by decide) rfl]
  have hw0 : ((gdf_for_region trivialModel [()] "UK").filter
      fun p => trivialModel.within p ukRg.geom) = [()] := rfl
  rw [hw0]
  rw [if_neg (by decide)]
  unfold processRegionCont
  rw [if_neg (by decide)]
  simp only [Except.ok.injEq, Option.some.injEq, ukRes, RegionResult.mk.injEq]
  norm_num [points_crs, buffer_distance, get_region_gdf, trivialModel]
  exact ⟨fun h => absurd h (by decide), by decide, fun h => absurd h (by decide)⟩

/-- C3: spatial filtering of a projected point set against a non-world
region first applies the strict containment predicate; if and only if that
yields an empty result, the looser intersects predicate is applied and its
result used instead, the `usedFallback` flag recording which predicate was
logged. -/
theorem spatial_filter_within_then_intersects {P G : Type} (M : GeoModel P G) (gdf : List P)
    (region_name : String) (res : RegionResult P G) (rg : RegionGdf G)
    (hw : region_name ≠ "World")
    (hrg : get_region_gdf M region_name = some rg)
    (hp : processRegion M gdf region_name = Except.ok (some res)) :
    (res.usedFallback = true ↔
      (gdf_for_region M gdf region_name).filter (fun p => M.within p rg.geom) = []) ∧
    res.filtered
      = (if ((gdf_for_region M gdf region_name).filter fun p => M.within p rg.geom).isEmpty
         then (gdf_for_region M gdf region_name).filter fun p => M.intersects p rg.geom
         else (gdf_for_region M gdf region_name).filter fun p => M.within p rg.geom) := by
  obtain ⟨rg2, hrg2, hfb, hfil, -, -, -, -, -⟩ :=
    processRegion_ok_nonworld M gdf region_name res hw hp
  rw [hrg] at hrg2
  simp only [Option.some.injEq] at hrg2
  subst hrg2
  refine ⟨?_, hfil⟩
  rw [hfb]
  exact List.isEmpty_iff

/-- Witness for C3 under `trivialModel` on the UK region. -/
theorem spatial_filter_within_then_intersects_witness :
    (ukRes.usedFallback = true ↔
      (gdf_for_region trivialModel [()] "UK").filter
        (fun p => trivialModel.within p ukRg.geom) = []) ∧
    ukRes.filtered
      = (if ((gdf_for_region trivialModel [()] "UK").filter
              fun p => trivialModel.within p ukRg.geom).isEmpty
         then (gdf_for_region trivialModel [()] "UK").filter
              fun p => trivialModel.intersects p ukRg.geom
         else (gdf_for_region trivialModel [()] "UK").filter
              fun p => trivialModel.within p ukRg.geom) :=
  spatial_filter_within_then_intersects trivialModel [()] "UK" ukRes ukRg
    (by decide) rfl processRegion_triv_uk

/-- C5 counterexample: when the world view is processed with a non-empty
point set, the buffer operation is executed on the point set kept in
EPSG:4326 — geographic degrees, not a linear-unit CRS — with the 0.02-degree
radius. -/
theorem world_buffer_in_geographic_degrees :
    processRegion trivialModel [()] "World"
      = Except.ok (some ⟨[()], false, CRS.epsg4326, 0.02, (), none⟩) ∧
    CRS.isLinear CRS.epsg4326 = false := ⟨rfl, rfl⟩

/-- C5 amended: for every non-world region the buffer runs in a linear-unit
CRS (and the area-bearing percentage exists only there); the world view
instead buffers in geographic degrees but never computes an area. -/
theorem buffer_and_area_crs_policy {P G : Type} (M : GeoModel P G) (gdf : List P)
    (region_name : String) (res : RegionResult P G)
    (hp : processRegion M gdf region_name = Except.ok (some res)) :
    (region_name ≠ "World" → res.bufferCrs.isLinear = true) ∧
    (region_name = "World" → res.bufferCrs = CRS.epsg4326 ∧ res.percent = none) := by
  constructor
  · intro hw
    obtain ⟨rg, hrg, -, -, -, hcrs, -, -, -⟩ :=
      processRegion_ok_nonworld M gdf region_name res hw hp
    rw [hcrs]
    unfold points_crs
    rw [if_neg hw]
    by_cases h1 : region_name = "UK"
    · rw [if_pos h1]
      rfl
    · rw [if_neg h1]
      rfl
  · intro hw
    subst hw
    obtain ⟨-, hres⟩ := processRegion_ok_world M gdf res hp
    rw [hres]
    exact ⟨rfl, rfl⟩

/-- Witness for C5's amended statement on the UK region. -/
theorem buffer_and_area_crs_policy_witness :
    (("UK" : String) ≠ "World" → ukRes.bufferCrs.isLinear = true) ∧
    (("UK" : String) = "World" → ukRes.bufferCrs = CRS.epsg4326 ∧ ukRes.percent = none) :=
  buffer_and_area_crs_policy trivialModel [()] "UK" ukRes processRegion_triv_uk

/-- C6: for every processed non-world region the reported percentage equals
100 × (coverage-geometry area / region polygon area), both areas taken by
the same `area` operation in the CRS shared by the region row and the
buffered points (a projected, linear-unit CRS); the world pseudo-region gets
no percentage. -/
theorem coverage_percentage_formula {P G : Type} (M : GeoModel P G) (gdf : List P)
    (region_name : String) (res : RegionResult P G)
    (hp : processRegion M gdf region_name = Except.ok (some res)) :
    (region_name = "World" → res.percent = none) ∧
    (region_name ≠ "World" →
      ∃ rg, get_region_gdf M region_name = some rg ∧
        res.percent = some (100 * (M.area res.covered / M.area rg.geom)) ∧
        rg.crs = res.bufferCrs ∧ rg.crs.isLinear = true) := by
  constructor
  · intro hw
    subst hw
    obtain ⟨-, hres⟩ := processRegion_ok_world M gdf res hp
    rw [hres]
  · intro hw
    obtain ⟨rg, hrg, -, -, -, hcrs, -, -, hperc⟩ :=
      processRegion_ok_nonworld M gdf region_name res hw hp
    obtain ⟨hcrs2, hlin⟩ := get_region_gdf_crs M region_name rg hw hrg
    refine ⟨rg, hrg, ?_, ?_, hlin⟩
    · rw [hperc, mul_comm]
    · rw [hcrs]
      exact hcrs2

/-- Witness for C6 on the UK region under `trivialModel`. -/
theorem coverage_percentage_formula_witness :
    (("UK" : String) = "World" → ukRes.percent = none) ∧
    (("UK" : String) ≠ "World" →
      ∃ rg, get_region_gdf trivialModel "UK" = some rg ∧
        ukRes.percent
          = some (100 * (trivialModel.area ukRes.covered / trivialModel.area rg.geom)) ∧
        rg.crs = ukRes.bufferCrs ∧ rg.crs.isLinear = true) :=
  coverage_percentage_formula trivialModel [()] "UK" ukRes processRegion_triv_uk

/-- C7 counterexample: requesting an unknown region name does not fail with
a dedicated UnknownRegion error — the registry lookup silently returns
nothing, the region loop then raises an uncaught attribute error, and the
following requested region (the UK) is never processed. -/
theorem unknown_region_aborts_remaining :
    get_region_gdf trivialModel "Somewhere" = none ∧
    processRegions trivialModel [()] ["Somewhere", "UK"]
      = Except.error RegionErr.noneTypeAttributeError := ⟨rfl, rfl⟩

/-- C7 amended: for any name matching no registry branch, `get_region_gdf`
returns `None`; processing that region raises the uncaught
`AttributeError` on the `None` dereference, and the whole region loop
aborts, leaving every later requested region unprocessed. -/
theorem unknown_region_none_and_abort {P G : Type} (M : GeoModel P G) (gdf : List P)
    (region_name : String) (rest : List String)
    (h1 : region_name ≠ "UK") (h2 : region_name ≠ "Sheffield")
    (h3 : region_name ≠ "Buckinghamshire") (h4 : region_name ≠ "World") :
    get_region_gdf M region_name = none ∧
    processRegion M gdf region_name = Except.error RegionErr.noneTypeAttributeError ∧
    processRegions M gdf (region_name :: rest) = Except.error RegionErr.noneTypeAttributeError := by
  have hnone : get_region_gdf M region_name = none := by
    unfold get_region_gdf
    rw [if_neg h1, if_neg h2, if_neg h3, if_neg h4]
  have herr : processRegion M gdf region_name = Except.error RegionErr.noneTypeAttributeError := by
    unfold processRegion
    rw [if_neg h4, hnone]
  refine ⟨hnone, herr, ?_⟩
  simp only [processRegions]
  rw [herr]

/-- Witness for C7's amended statement on a concrete unknown name. -/
theorem unknown_region_none_and_abort_witness :
    get_region_gdf trivialModel "Nowhere" = none ∧
    processRegion trivialModel [()] "Nowhere" = Except.error RegionErr.noneTypeAttributeError ∧
    processRegions trivialModel [()] ("Nowhere" :: ["UK"])
      = Except.error RegionErr.noneTypeAttributeError :=
  unknown_region_none_and_abort trivialModel [()] "Nowhere" ["UK"]
    (by decide) (by decide) (by decide) (by decide)

/-- C8 counterexample: the percentage is not clamped and nothing in the code
keeps the covered area below the region area, so when the union of buffered
disks covers more area than the region polygon (a boundary overshoot,
realised here by `inflatedModel` with a region of area 1 and a buffered disk
of area 100) the reported percentage exceeds 100. -/
theorem coverage_percent_can_exceed_100 :
    processRegion inflatedModel [()] "UK"
      = Except.ok (some ⟨[()], false, CRS.epsg27700, 100, 100, some 10000⟩) ∧
    (0 : ℚ) < inflatedModel.area inflatedModel.ukGeom ∧
    ¬((10000 : ℚ) ≤ 100) := by
  refine ⟨?_, by norm_num [inflatedModel], by norm_num⟩
  rw [processRegion_nonworld_some_eq inflatedModel [()] "UK" ⟨CRS.epsg27700, 1⟩ (by decide) rfl]
  have hw0 : ((gdf_for_region inflatedModel [()] "UK").filter
      fun p => inflatedModel.within p (RegionGdf.geom (G := ℚ) ⟨CRS.epsg27700, 1⟩)) = [()] := rfl
  rw [hw0]
  rw [if_neg (by decide)]
  unfold processRegionCont
  rw [if_neg (by decide)]
  simp only [Except.ok.injEq, Option.some.injEq, RegionResult.mk.injEq]
  norm_num [points_crs, buffer_distance, get_region_gdf, simplify_tolerance, inflatedModel]
  exact ⟨fun h => absurd h (by decide), by decide⟩

/-- C8 amended: the computed percentage is nonnegative whenever the areas
are (which the code does not check but real areas satisfy), and it lies
below 100 exactly when the covered area does not exceed the region area —
the code neither clamps the value nor enforces that bound. -/
theorem coverage_percent_nonneg_and_bound {P G : Type} (M : GeoModel P G) (gdf : List P)
    (region_name : String) (res : RegionResult P G) (rg : RegionGdf G)
    (hw : region_name ≠ "World")
    (hrg : get_region_gdf M region_name = some rg)
    (hp : processRegion M gdf region_name = Except.ok (some res))
    (hcov : 0 ≤ M.area res.covered) (hreg : 0 < M.area rg.geom) :
    ∃ pc : ℚ, res.percent = some pc ∧ 0 ≤ pc ∧
      (pc ≤ 100 ↔ M.area res.covered ≤ M.area rg.geom) := by
  obtain ⟨rg2, hrg2, -, -, -, -, -, -, hperc⟩ :=
    processRegion_ok_nonworld M gdf region_name res hw hp
  rw [hrg] at hrg2
  simp only [Option.some.injEq] at hrg2
  subst hrg2
  refine ⟨M.area res.covered / M.area rg.geom * 100, hperc, ?_, ?_⟩
  · exact mul_nonneg (div_nonneg hcov hreg.le) (by norm_num)
  · rw [mul_le_iff_le_one_left (by norm_num : (0 : ℚ) < 100)]
    exact div_le_one hreg

/-- Witness for C8's amended statement on the UK region under
`trivialModel`. -/
theorem coverage_percent_nonneg_and_bound_witness :
    ∃ pc : ℚ, ukRes.percent = some pc ∧ 0 ≤ pc ∧
      (pc ≤ 100 ↔ trivialModel.area ukRes.covered ≤ trivialModel.area ukRg.geom) :=
  coverage_percent_nonneg_and_bound trivialModel [()] "UK" ukRes ukRg
    (by decide) rfl processRegion_triv_uk
    (by norm_num [trivialModel]) (by norm_num [trivialModel])
